import Mathlib

/-!
Shallow embedding of the Fireline edge server (edge-server/src/index.ts, the
"part_003" revision) and of the responder simulator's reliable sender
(edge-server/src/sim.ts).  JS `Map`s are modelled as association lists that
preserve insertion order (`aset` replaces in place, `aerase` removes the
entry); JS `Set`s of sockets are modelled as duplicate-free lists of
connection ids; JS numbers are modelled as rationals, with a separate
constructor for the non-finite values rejected by `Number.isFinite`.
-/

namespace Fireline

/-- Lookup in an association list, first match wins (JS `Map.get`). -/
def alookup {α β : Type} [DecidableEq α] : List (α × β) → α → Option β
  | [], _ => none
  | (k, v) :: t, k0 => if k = k0 then some v else alookup t k0

/-- Insert-or-replace-in-place (JS `Map.set`): an existing key keeps its
position, a new key is appended at the end. -/
def aset {α β : Type} [DecidableEq α] : List (α × β) → α → β → List (α × β)
  | [], k, v => [(k, v)]
  | (k0, v0) :: t, k, v => if k0 = k then (k, v) :: t else (k0, v0) :: aset t k v

/-- Delete a key (JS `Map.delete`): removes the first entry with that key. -/
def aerase {α β : Type} [DecidableEq α] : List (α × β) → α → List (α × β)
  | [], _ => []
  | (k0, v0) :: t, k => if k0 = k then t else (k0, v0) :: aerase t k

/-- JS `Set.add`: append the element if it is not already present. -/
def setAdd {α : Type} [DecidableEq α] (l : List α) (x : α) : List α :=
  if x ∈ l then l else l ++ [x]

/-- A JSON value as far as the server inspects one: strings, finite numbers,
non-finite numbers (`NaN`/`±Infinity`: `typeof` is "number" but
`Number.isFinite` is false), booleans, `null`, `undefined` (also used for an
absent field), and other objects carrying the result of JS string coercion
(`String([])` is `""`, `String({})` is `"[object Object]"`, ...). -/
inductive Value : Type
  | vStr (s : String)
  | vNum (q : ℚ)
  | vNaN
  | vBool (b : Bool)
  | vNull
  | vUndef
  | vObj (toStr : String)
deriving DecidableEq

/-- Rendering of a (finite) JS number by `String(...)`; the exact digits are
abstracted by the rational rendering, which is never empty. -/
def ratStr (q : ℚ) : String :=
  if q.den = 1 then toString q.num else toString q.num ++ "/" ++ toString q.den

/-- JS `String(x ?? "")` as used on `CLIENT_HELLO` fields and `CHAT_SEND.text`:
`null`/`undefined` collapse to `""`, everything else is string-coerced. -/
def coerceStr : Value → String
  | .vStr s => s
  | .vNum q => ratStr q
  | .vNaN => "NaN"
  | .vBool b => cond b "true" "false"
  | .vNull => ""
  | .vUndef => ""
  | .vObj s => s

/-- The fields of an incoming JSON message that the server reads; an absent
field is `vUndef`. -/
structure JMsg where
  type : Value := .vUndef
  msgId : Value := .vUndef
  incidentId : Value := .vUndef
  responderId : Value := .vUndef
  lat : Value := .vUndef
  lng : Value := .vUndef
  accuracy : Value := .vUndef
  note : Value := .vUndef
  text : Value := .vUndef
deriving DecidableEq

/-- Stored last-known location (source type `Location`). -/
structure Location where
  lat : ℚ
  lng : ℚ
  accuracy : Option ℚ
  atMs : Nat
deriving DecidableEq

/-- Stored SOS state (source type `SosState`). -/
structure SosState where
  note : Option String
  atMs : Nat
deriving DecidableEq

/-- Metadata bound to a connection by the handshake (source type `ClientMeta`). -/
structure ClientMeta where
  incidentId : String
  responderId : String
deriving DecidableEq

/-- A connection id standing for one WebSocket object. -/
abbrev ConnId := Nat

/-- The server's in-memory state: `rooms`, `clientMeta`,
`lastLocationByResponder`, `activeSosByIncident`, `dedupMsgIdsByIncident`,
plus the set of connections whose `readyState` is OPEN. -/
structure ServerState where
  rooms : List (String × List ConnId)
  clientMeta : List (ConnId × ClientMeta)
  lastLocationByResponder : List (String × Location)
  activeSosByIncident : List (String × List (String × SosState))
  dedupMsgIdsByIncident : List (String × List (String × Nat))
  openConns : List ConnId
deriving DecidableEq

/-- The empty state at server start. -/
def initialState : ServerState := ⟨[], [], [], [], [], []⟩

def DEDUP_TTL_MS : Nat := 15 * 60 * 1000

/-- Payloads the server emits. -/
inductive Payload : Type
  | pError (error : String) (atMs : Nat)
  | pAck (incidentId : String) (atMs : Nat)
  | pAckMsg (msgId : String) (atMs : Nat)
  | pSnapshot (incidentId : String) (responders : List String)
      (locations : List (String × Location)) (sos : List (String × SosState)) (atMs : Nat)
  | pLocationUpdate (msgId incidentId responderId : String) (loc : Location)
  | pSosRaise (msgId incidentId responderId : String) (sos : SosState)
  | pSosClear (msgId incidentId responderId : String) (atMs : Nat)
  | pChat (msgId incidentId sender text : String) (atMs : Nat)
  | pPassthrough (m : JMsg) (msgId incidentId sender : String) (atMs : Nat)
  | pPresenceLeave (incidentId responderId : String) (atMs : Nat)
deriving DecidableEq

/-- One emitted frame: destination connection and payload. -/
abbrev Ev := ConnId × Payload

/-- `send(ws, payload)`: a no-op unless the peer's `readyState` is OPEN. -/
def sendEv (st : ServerState) (c : ConnId) (p : Payload) : List Ev :=
  if c ∈ st.openConns then [(c, p)] else []

/-- `broadcastToIncident`: send to every open connection in the room. -/
def broadcastToIncident (st : ServerState) (incidentId : String) (p : Payload) : List Ev :=
  match alookup st.rooms incidentId with
  | none => []
  | some conns => (conns.filter (fun c => c ∈ st.openConns)).map (fun c => (c, p))

/-- `getIncidentResponderIds`: responder ids of room members that have metadata. -/
def getIncidentResponderIds (st : ServerState) (incidentId : String) : List String :=
  ((alookup st.rooms incidentId).getD []).filterMap
    (fun c => (alookup st.clientMeta c).map (fun meta => meta.responderId))

/-- `getIncidentLocations`: stored locations of the responders in the room. -/
def getIncidentLocations (st : ServerState) (incidentId : String) :
    List (String × Location) :=
  (getIncidentResponderIds st incidentId).foldl
    (fun acc id =>
      match alookup st.lastLocationByResponder id with
      | some loc => aset acc id loc
      | none => acc) []

/-- `getIncidentSos`: copy of the incident's SOS map (empty if absent). -/
def getIncidentSos (st : ServerState) (incidentId : String) : List (String × SosState) :=
  (alookup st.activeSosByIncident incidentId).getD []

/-- SOS lookup: `activeSosByIncident[incidentId]?.get(responderId)`. -/
def sosLookup (st : ServerState) (incidentId responderId : String) : Option SosState :=
  (alookup st.activeSosByIncident incidentId).bind (fun mm => alookup mm responderId)

/-- `isValidLatLng`: both values are finite numbers inside
`[-90,90]` × `[-180,180]`. -/
def isValidLatLng (lat lng : Value) : Bool :=
  match lat, lng with
  | .vNum a, .vNum b =>
      decide (-90 ≤ a) && decide (a ≤ 90) && decide (-180 ≤ b) && decide (b ≤ 180)
  | _, _ => false

/-- The checks of `isValidLatLng` packaged with the extracted numbers. -/
def latLng? (lat lng : Value) : Option (ℚ × ℚ) :=
  match lat, lng with
  | .vNum a, .vNum b =>
      if -90 ≤ a ∧ a ≤ 90 ∧ -180 ≤ b ∧ b ≤ 180 then some (a, b) else none
  | _, _ => none

/-- `typeof accuracy === "number" && Number.isFinite(accuracy)`:
keep the field only for a finite number. -/
def accOf : Value → Option ℚ
  | .vNum q => some q
  | _ => none

/-- `typeof msg.note === "string" ? msg.note : undefined` followed by the
truthiness test `note ? { note } : {}`: the note survives only when it is a
non-empty string. -/
def noteOf : Value → Option String
  | .vStr s => if s = "" then none else some s
  | _ => none

/-- `msgId.trim() === ""`: the string trims to empty exactly when every one of
its characters is whitespace. -/
def trimEmpty (s : String) : Bool :=
  s.data.all Char.isWhitespace

/-- Dedup lookup: `(incidentId, msgId) → firstSeenAtMs`. -/
def dedupLookup (st : ServerState) (incidentId msgId : String) : Option Nat :=
  (alookup st.dedupMsgIdsByIncident incidentId).bind (fun mm => alookup mm msgId)

/-- The mutation of `markMsgIdIfNew` in the fresh case: record
`(incidentId, msgId) → now`, creating the incident's map when absent. -/
def markMsgId (st : ServerState) (incidentId msgId : String) (now : Nat) : ServerState :=
  let inner := aset ((alookup st.dedupMsgIdsByIncident incidentId).getD []) msgId now
  { st with dedupMsgIdsByIncident := aset st.dedupMsgIdsByIncident incidentId inner }

/-- The minute sweeper: drop dedup entries older than `DEDUP_TTL_MS`, then drop
incidents whose map became empty. -/
def sweepDedup (st : ServerState) (now : Nat) : ServerState :=
  { st with dedupMsgIdsByIncident := ((st.dedupMsgIdsByIncident.map
      (fun p => (p.1, p.2.filter (fun e => decide (now - e.2 ≤ DEDUP_TTL_MS))))).filter
      (fun p => !p.2.isEmpty)) }

/-- State after a successful `CLIENT_HELLO`: metadata bound, connection added
to the (lazily created) room. -/
def helloBoundState (st : ServerState) (c : ConnId) (incidentId responderId : String) :
    ServerState :=
  let st1 := { st with clientMeta := aset st.clientMeta c ⟨incidentId, responderId⟩ }
  { st1 with rooms := aset st1.rooms incidentId (setAdd ((alookup st1.rooms incidentId).getD []) c) }

/-- The `CLIENT_HELLO` branch (source lines 182-208). -/
def handleHello (st : ServerState) (c : ConnId) (m : JMsg) (now : Nat) :
    ServerState × List Ev :=
  let incidentId := coerceStr m.incidentId
  let responderId := coerceStr m.responderId
  if incidentId = "" ∨ responderId = "" then
    (st, sendEv st c (.pError "CLIENT_HELLO requires incidentId and responderId" now))
  else
    let st2 := helloBoundState st c incidentId responderId
    (st2, sendEv st2 c (.pAck incidentId now) ++
      sendEv st2 c (.pSnapshot incidentId (getIncidentResponderIds st2 incidentId)
        (getIncidentLocations st2 incidentId) (getIncidentSos st2 incidentId) now))

/-- The `SOS_RAISE` mutation: overwrite the responder's entry in the
incident's SOS map (the incident entry is created lazily); the stored state
is `{ at, ...(note ? {note} : {}) }`, modelled by an optional note. -/
def sosRaiseState (st : ServerState) (meta : ClientMeta) (note : Option String)
    (now : Nat) : ServerState :=
  let inner := aset ((alookup st.activeSosByIncident meta.incidentId).getD [])
    meta.responderId ⟨note, now⟩
  { st with activeSosByIncident := aset st.activeSosByIncident meta.incidentId inner }

/-- The per-type dispatch that runs after the dedup mark and the immediate
`ACK_MSG` (source lines 233-331). -/
def dispatchData (st : ServerState) (c : ConnId) (meta : ClientMeta) (mid : String)
    (m : JMsg) (now : Nat) : ServerState × List Ev :=
  if m.type = .vStr "LOCATION_UPDATE" then
    match latLng? m.lat m.lng with
    | none => (st, sendEv st c (.pError "Invalid lat/lng" now))
    | some (a, b) =>
      let loc : Location := ⟨a, b, accOf m.accuracy, now⟩
      let st1 := { st with lastLocationByResponder := aset st.lastLocationByResponder meta.responderId loc }
      (st1, broadcastToIncident st1 meta.incidentId
        (.pLocationUpdate mid meta.incidentId meta.responderId loc))
  else if m.type = .vStr "SOS_RAISE" then
    let st1 := sosRaiseState st meta (noteOf m.note) now
    (st1, broadcastToIncident st1 meta.incidentId
      (.pSosRaise mid meta.incidentId meta.responderId ⟨noteOf m.note, now⟩))
  else if m.type = .vStr "SOS_CLEAR" then
    let st1 :=
      match alookup st.activeSosByIncident meta.incidentId with
      | none => st
      | some incidentSos =>
        let m2 := aerase incidentSos meta.responderId
        if m2 = [] then
          { st with activeSosByIncident := aerase st.activeSosByIncident meta.incidentId }
        else
          { st with activeSosByIncident := aset st.activeSosByIncident meta.incidentId m2 }
    (st1, broadcastToIncident st1 meta.incidentId
      (.pSosClear mid meta.incidentId meta.responderId now))
  else if m.type = .vStr "CHAT_SEND" then
    let text := coerceStr m.text
    if text = "" then (st, sendEv st c (.pError "CHAT_SEND requires text" now))
    else (st, broadcastToIncident st meta.incidentId
      (.pChat mid meta.incidentId meta.responderId text now))
  else
    (st, broadcastToIncident st meta.incidentId
      (.pPassthrough m mid meta.incidentId meta.responderId now))

/-- The `msgId` validation `typeof msgId !== "string" || msgId.trim() === ""`:
a non-string value and a blank string both fail, with the same error reply in
the source. -/
def validMsgId : Value → Option String
  | .vStr s => if trimEmpty s then none else some s
  | _ => none

/-- Processing of a data message from a joined connection: `msgId` check,
dedup (ack-and-stop on a repeat), immediate `ACK_MSG`, then dispatch. -/
def handleData (st : ServerState) (c : ConnId) (meta : ClientMeta) (m : JMsg) (now : Nat) :
    ServerState × List Ev :=
  match validMsgId m.msgId with
  | none => (st, sendEv st c (.pError "Missing msgId (required for reliability)" now))
  | some mid =>
    if (dedupLookup st meta.incidentId mid).isSome then
      (st, sendEv st c (.pAckMsg mid now))
    else
      let st1 := markMsgId st meta.incidentId mid now
      let r := dispatchData st1 c meta mid m now
      (r.1, sendEv st1 c (.pAckMsg mid now) ++ r.2)

/-- The whole `ws.on("message")` handler on a parsed message: handshake branch,
join check, then data-message processing. -/
def handleMessage (st : ServerState) (c : ConnId) (m : JMsg) (now : Nat) :
    ServerState × List Ev :=
  if m.type = .vStr "CLIENT_HELLO" then handleHello st c m now
  else
    match alookup st.clientMeta c with
    | none => (st, sendEv st c (.pError "Must send CLIENT_HELLO before other messages" now))
    | some meta => handleData st c meta m now

/-- The `ws.on("close")` handler: mark the socket closed, and if it was bound,
remove it from its room (deleting an emptied room), drop its metadata, and
broadcast `PRESENCE_LEAVE` to the remaining members. -/
def handleClose (st : ServerState) (c : ConnId) (now : Nat) : ServerState × List Ev :=
  let st0 := { st with openConns := st.openConns.filter (fun x => x ≠ c) }
  match alookup st0.clientMeta c with
  | none => (st0, [])
  | some meta =>
    let rooms1 :=
      match alookup st0.rooms meta.incidentId with
      | none => st0.rooms
      | some conns =>
        let conns2 := conns.filter (fun x => x ≠ c)
        if conns2 = [] then aerase st0.rooms meta.incidentId
        else aset st0.rooms meta.incidentId conns2
    let st1 := { st0 with rooms := rooms1, clientMeta := aerase st0.clientMeta c }
    (st1, broadcastToIncident st1 meta.incidentId
      (.pPresenceLeave meta.incidentId meta.responderId now))

/-- External stimuli of the server. -/
inductive Step : Type
  | connect (c : ConnId)
  | smsg (c : ConnId) (m : JMsg) (now : Nat)
  | sclose (c : ConnId) (now : Nat)
  | sweep (now : Nat)

/-- A new transport connection: the socket becomes OPEN, no state-map change. -/
def stepConnect (st : ServerState) (c : ConnId) : ServerState :=
  { st with openConns := setAdd st.openConns c }

/-- Effect of one stimulus. -/
def applyStep (st : ServerState) : Step → ServerState × List Ev
  | .connect c => (stepConnect st c, [])
  | .smsg c m now => handleMessage st c m now
  | .sclose c now => handleClose st c now
  | .sweep now => (sweepDedup st now, [])

/-- Run a list of stimuli, discarding outputs. -/
def runSteps (st : ServerState) (ss : List Step) : ServerState :=
  ss.foldl (fun s stp => (applyStep s stp).1) st

/-! Client-side reliable sender (edge-server/src/sim.ts, `ResponderSim`). -/

def RESEND_AFTER_MS : Nat := 1500

/-- An outbox entry (source type `OutboxItem`). -/
structure OutboxItem where
  msgId : String
  type : String
  payload : List (String × Value)
  priority : Nat
  lastSentAt : Option Nat
  attempts : Nat
deriving DecidableEq

/-- The sender's state: connection flag, priority-ordered outbox, and the
in-flight `pending` map keyed by `msgId`. -/
structure ClientState where
  connected : Bool
  outbox : List OutboxItem
  pending : List (String × OutboxItem)
deriving DecidableEq

/-- The item as `sendItem` mutates it: `lastSentAt = now`, `attempts += 1`. -/
def sentVersion (it : OutboxItem) (now : Nat) : OutboxItem :=
  { it with lastSentAt := some now, attempts := it.attempts + 1 }

/-- The walk of `flushOutbox` over the outbox: at each item, send it if it is
not in `pending`, or resend it if `now - lastSentAt > RESEND_AFTER_MS`;
otherwise continue.  Returns the updated outbox (the mutated item is shared
with the outbox in the source) and the item sent, if any. -/
def flushGo (pending : List (String × OutboxItem)) (now : Nat) :
    List OutboxItem → List OutboxItem × Option OutboxItem
  | [] => ([], none)
  | it :: rest =>
    if !(alookup pending it.msgId).isSome then
      (sentVersion it now :: rest, some (sentVersion it now))
    else if now - (it.lastSentAt.getD 0) > RESEND_AFTER_MS then
      (sentVersion it now :: rest, some (sentVersion it now))
    else
      let r := flushGo pending now rest
      (it :: r.1, r.2)

/-- `flushOutbox`: a no-op when disconnected; otherwise one walk of the
outbox, and the sent item (if any) is put into `pending`. -/
def flushOutbox (st : ClientState) (now : Nat) : ClientState × Option OutboxItem :=
  if st.connected then
    match flushGo st.pending now st.outbox with
    | (ob, some it) => ({ st with outbox := ob, pending := aset st.pending it.msgId it }, some it)
    | (ob, none) => ({ st with outbox := ob }, none)
  else (st, none)

/-- The condition under which the source's walk fires on an item. -/
def flushTrigger (pending : List (String × OutboxItem)) (now : Nat) (it : OutboxItem) : Bool :=
  !(alookup pending it.msgId).isSome || decide (now - (it.lastSentAt.getD 0) > RESEND_AFTER_MS)

/-- Replace the first item satisfying `p` by its image under `f`. -/
def replaceFirstBy (p : OutboxItem → Bool) (f : OutboxItem → OutboxItem) :
    List OutboxItem → List OutboxItem
  | [] => []
  | x :: xs => if p x then f x :: xs else x :: replaceFirstBy p f xs

/-- The `ACK_MSG` branch of the simulator's message handler: if the id is in
`pending`, drop it from `pending` and filter it out of the outbox; otherwise
do nothing. -/
def handleAckMsg (st : ClientState) (v : Value) : ClientState :=
  match v with
  | .vStr id =>
    if (alookup st.pending id).isSome then
      { st with pending := aerase st.pending id,
                outbox := st.outbox.filter (fun x => x.msgId ≠ id) }
    else st
  | _ => st

/-- `this.pending.has(id)` on the raw `msgId` value. -/
def pendingHas (pending : List (String × OutboxItem)) (v : Value) : Bool :=
  match v with
  | .vStr s => (alookup pending s).isSome
  | _ => false

/-- A pending outbox item, sent once long ago. -/
def itemA : OutboxItem := ⟨"a", "CHAT_SEND", [], 3, some 1000, 1⟩

/-- A freshly enqueued outbox item, never sent. -/
def itemB : OutboxItem := ⟨"b", "CHAT_SEND", [], 3, none, 0⟩

/-- A connected client with `itemA` in flight and `itemB` queued behind it. -/
def clientW : ClientState := ⟨true, [itemA, itemB], [("a", itemA)]⟩

/-! Association-list and set toolkit. -/

theorem alookup_aset_self {α β : Type} [DecidableEq α] (l : List (α × β)) (k : α) (v : β) :
    alookup (aset l k v) k = some v := by
  induction l with
  | nil => simp [aset, alookup]
  | cons h t ih =>
    obtain ⟨k0, v0⟩ := h
    by_cases hk : k0 = k
    · simp [aset, hk, alookup]
    · simp [aset, hk, alookup, ih]

theorem alookup_aset_ne {α β : Type} [DecidableEq α] (l : List (α × β)) (k k1 : α) (v : β)
    (h : k1 ≠ k) : alookup (aset l k v) k1 = alookup l k1 := by
  induction l with
  | nil =>
    simp only [aset, alookup]
    rw [if_neg (fun hh => h hh.symm)]
  | cons hd t ih =>
    obtain ⟨k0, v0⟩ := hd
    by_cases hk : k0 = k
    · subst hk
      simp only [aset, if_pos rfl, alookup]
      rw [if_neg (fun hh => h hh.symm), if_neg (fun hh => h hh.symm)]
    · simp only [aset, if_neg hk, alookup]
      by_cases hk1 : k0 = k1
      · simp [hk1]
      · simp [hk1, ih]

theorem alookup_aerase_ne {α β : Type} [DecidableEq α] (l : List (α × β)) (k k1 : α)
    (h : k1 ≠ k) : alookup (aerase l k) k1 = alookup l k1 := by
  induction l with
  | nil => simp [aerase]
  | cons hd t ih =>
    obtain ⟨k0, v0⟩ := hd
    by_cases hk : k0 = k
    · subst hk
      have e : aerase ((k0, v0) :: t) k0 = t := by
        rw [aerase]
        exact if_pos rfl
      rw [e, alookup, if_neg (fun hh => h hh.symm)]
    · simp only [aerase, if_neg hk, alookup]
      by_cases hk1 : k0 = k1
      · simp [hk1]
      · simp [hk1, ih]

theorem alookup_mem {α β : Type} [DecidableEq α] {l : List (α × β)} {k : α} {v : β}
    (h : alookup l k = some v) : (k, v) ∈ l := by
  induction l with
  | nil => simp [alookup] at h
  | cons hd t ih =>
    obtain ⟨k0, v0⟩ := hd
    by_cases hk : k0 = k
    · subst hk
      simp [alookup] at h
      subst h
      exact List.mem_cons_self _ _
    · simp only [alookup, if_neg hk] at h
      exact List.mem_cons_of_mem _ (ih h)

theorem alookup_filter {α β : Type} [DecidableEq α] {l : List (α × β)} {k : α} {v : β}
    (p : α × β → Bool) (h : alookup l k = some v) (hp : p (k, v) = true) :
    alookup (l.filter p) k = some v := by
  induction l with
  | nil => simp [alookup] at h
  | cons hd t ih =>
    obtain ⟨k0, v0⟩ := hd
    by_cases hk : k0 = k
    · subst hk
      rw [alookup, if_pos rfl] at h
      cases h
      simp [List.filter_cons, hp, alookup]
    · simp only [alookup, if_neg hk] at h
      by_cases hph : p (k0, v0) = true
      · simp [List.filter_cons, hph, alookup, hk, ih h]
      · simp only [List.filter_cons, hph, Bool.false_eq_true, if_false]
        exact ih h

theorem alookup_map_val {α β γ : Type} [DecidableEq α] (g : β → γ) (l : List (α × β))
    (k : α) :
    alookup (l.map (fun p => (p.1, g p.2))) k = (alookup l k).map g := by
  induction l with
  | nil => simp [alookup]
  | cons hd t ih =>
    obtain ⟨k0, v0⟩ := hd
    by_cases hk : k0 = k
    · subst hk
      simp [alookup]
    · simp [alookup, hk, ih]

/-- Keys of an association list are pairwise distinct. -/
def keysNodup {α β : Type} (l : List (α × β)) : Prop :=
  (l.map Prod.fst).Nodup

theorem keys_aset_subset {α β : Type} [DecidableEq α] (l : List (α × β)) (k : α) (v : β) :
    ∀ x ∈ (aset l k v).map Prod.fst, x = k ∨ x ∈ l.map Prod.fst := by
  induction l with
  | nil =>
    intro x hx
    simp [aset] at hx
    exact Or.inl hx
  | cons hd t ih =>
    obtain ⟨k0, v0⟩ := hd
    intro x hx
    by_cases hk : k0 = k
    · subst hk
      have e : aset ((k0, v0) :: t) k0 v = (k0, v) :: t := by
        rw [aset]
        exact if_pos rfl
      rw [e] at hx
      simp only [List.map_cons, List.mem_cons] at hx ⊢
      rcases hx with h1 | h1
      · exact Or.inl h1
      · exact Or.inr (Or.inr h1)
    · have e : aset ((k0, v0) :: t) k v = (k0, v0) :: aset t k v := by
        rw [aset]
        exact if_neg hk
      rw [e] at hx
      simp only [List.map_cons, List.mem_cons] at hx ⊢
      rcases hx with h1 | h1
      · exact Or.inr (Or.inl h1)
      · rcases ih x h1 with h2 | h2
        · exact Or.inl h2
        · exact Or.inr (Or.inr h2)

theorem keysNodup_aset {α β : Type} [DecidableEq α] {l : List (α × β)} (k : α) (v : β)
    (h : keysNodup l) : keysNodup (aset l k v) := by
  induction l with
  | nil => simp [aset, keysNodup]
  | cons hd t ih =>
    obtain ⟨k0, v0⟩ := hd
    simp only [keysNodup, List.map_cons, List.nodup_cons] at h
    by_cases hk : k0 = k
    · subst hk
      simpa [aset, keysNodup] using h
    · simp only [aset, if_neg hk, keysNodup, List.map_cons, List.nodup_cons]
      refine ⟨fun hmem => ?_, ih h.2⟩
      rcases keys_aset_subset t k v k0 hmem with hx | hx
      · exact hk hx
      · exact h.1 hx

theorem aerase_sublist {α β : Type} [DecidableEq α] (l : List (α × β)) (k : α) :
    (aerase l k).Sublist l := by
  induction l with
  | nil => simp [aerase]
  | cons hd t ih =>
    obtain ⟨k0, v0⟩ := hd
    by_cases hk : k0 = k
    · rw [aerase, if_pos hk]
      exact List.sublist_cons_self _ _
    · rw [aerase, if_neg hk]
      exact List.Sublist.cons₂ _ ih

theorem keysNodup_aerase {α β : Type} [DecidableEq α] {l : List (α × β)} (k : α)
    (h : keysNodup l) : keysNodup (aerase l k) :=
  List.Nodup.sublist (List.Sublist.map Prod.fst (aerase_sublist l k)) h

theorem mem_aset_nodup {α β : Type} [DecidableEq α] {l : List (α × β)} {k : α} {v : β}
    {p : α × β} (h : keysNodup l) (hm : p ∈ aset l k v) : p = (k, v) ∨ (p ∈ l ∧ p.1 ≠ k) := by
  induction l with
  | nil =>
    rw [aset] at hm
    exact Or.inl (List.mem_singleton.mp hm)
  | cons hd t ih =>
    obtain ⟨k0, v0⟩ := hd
    simp only [keysNodup, List.map_cons, List.nodup_cons] at h
    by_cases hk : k0 = k
    · subst hk
      simp only [aset, if_pos rfl] at hm
      rcases List.mem_cons.mp hm with hm | hm
      · exact Or.inl hm
      · refine Or.inr ⟨List.mem_cons_of_mem _ hm, fun hp => ?_⟩
        exact h.1 (hp ▸ List.mem_map_of_mem Prod.fst hm)
    · simp only [aset, if_neg hk] at hm
      rcases List.mem_cons.mp hm with hm | hm
      · subst hm
        exact Or.inr ⟨List.mem_cons_self _ _, hk⟩
      · rcases ih h.2 hm with hm2 | hm2
        · exact Or.inl hm2
        · exact Or.inr ⟨List.mem_cons_of_mem _ hm2.1, hm2.2⟩

theorem mem_aerase_nodup {α β : Type} [DecidableEq α] {l : List (α × β)} {k : α}
    {p : α × β} (h : keysNodup l) (hm : p ∈ aerase l k) : p ∈ l ∧ p.1 ≠ k := by
  induction l with
  | nil => simp [aerase] at hm
  | cons hd t ih =>
    obtain ⟨k0, v0⟩ := hd
    simp only [keysNodup, List.map_cons, List.nodup_cons] at h
    by_cases hk : k0 = k
    · subst hk
      simp only [aerase, if_pos rfl] at hm
      refine ⟨List.mem_cons_of_mem _ hm, fun hp => ?_⟩
      exact h.1 (hp ▸ List.mem_map_of_mem Prod.fst hm)
    · simp only [aerase, if_neg hk] at hm
      rcases List.mem_cons.mp hm with hm | hm
      · subst hm
        exact ⟨List.mem_cons_self _ _, hk⟩
      · obtain ⟨h1, h2⟩ := ih h.2 hm
        exact ⟨List.mem_cons_of_mem _ h1, h2⟩

theorem alookup_isEmpty_false {α β : Type} [DecidableEq α] {l : List (α × β)} {k : α} {v : β}
    (h : alookup l k = some v) : l.isEmpty = false := by
  cases l with
  | nil => simp [alookup] at h
  | cons a t => simp [List.isEmpty]

theorem mem_setAdd {α : Type} [DecidableEq α] {l : List α} {x y : α}
    (h : y ∈ setAdd l x) : y ∈ l ∨ y = x := by
  by_cases hx : x ∈ l
  · simp [setAdd, hx] at h
    exact Or.inl h
  · simp [setAdd, hx] at h
    exact h

/-! Concrete fixtures used by witnesses and counterexamples. -/

/-- A well-formed `CLIENT_HELLO`. -/
def helloMsg (i r : String) : JMsg :=
  { type := .vStr "CLIENT_HELLO", incidentId := .vStr i, responderId := .vStr r }

/-- A well-formed `CHAT_SEND`. -/
def chatMsgF (mid text : String) : JMsg :=
  { type := .vStr "CHAT_SEND", msgId := .vStr mid, text := .vStr text }

/-- An `SOS_RAISE` with an arbitrary `note` value. -/
def sosMsgF (mid : String) (note : Value) : JMsg :=
  { type := .vStr "SOS_RAISE", msgId := .vStr mid, note := note }

/-- A `LOCATION_UPDATE` with arbitrary coordinate values. -/
def locMsgF (mid : String) (lat lng : Value) : JMsg :=
  { type := .vStr "LOCATION_UPDATE", msgId := .vStr mid, lat := lat, lng := lng }

theorem self_mem_setAdd {α : Type} [DecidableEq α] (l : List α) (x : α) :
    x ∈ setAdd l x := by
  by_cases hx : x ∈ l
  · rw [setAdd, if_pos hx]
    exact hx
  · simp [setAdd, hx]

/-! Frame lemmas: which state components each handler can touch. -/

theorem dispatchData_frame (st : ServerState) (c : ConnId) (meta : ClientMeta)
    (mid : String) (m : JMsg) (now : Nat) :
    (dispatchData st c meta mid m now).1.rooms = st.rooms ∧
    (dispatchData st c meta mid m now).1.clientMeta = st.clientMeta ∧
    (dispatchData st c meta mid m now).1.dedupMsgIdsByIncident = st.dedupMsgIdsByIncident ∧
    (dispatchData st c meta mid m now).1.openConns = st.openConns := by
  unfold dispatchData
  dsimp only
  repeat' split
  all_goals exact ⟨rfl, rfl, rfl, rfl⟩

theorem handleHello_frame (st : ServerState) (c : ConnId) (m : JMsg) (now : Nat) :
    (handleHello st c m now).1.dedupMsgIdsByIncident = st.dedupMsgIdsByIncident ∧
    (handleHello st c m now).1.openConns = st.openConns ∧
    (handleHello st c m now).1.activeSosByIncident = st.activeSosByIncident ∧
    (handleHello st c m now).1.lastLocationByResponder = st.lastLocationByResponder := by
  unfold handleHello
  dsimp only
  split
  · exact ⟨rfl, rfl, rfl, rfl⟩
  · exact ⟨rfl, rfl, rfl, rfl⟩

theorem handleClose_frame (st : ServerState) (c : ConnId) (now : Nat) :
    (handleClose st c now).1.dedupMsgIdsByIncident = st.dedupMsgIdsByIncident ∧
    (handleClose st c now).1.activeSosByIncident = st.activeSosByIncident ∧
    (handleClose st c now).1.lastLocationByResponder = st.lastLocationByResponder := by
  unfold handleClose
  dsimp only
  repeat' split
  all_goals exact ⟨rfl, rfl, rfl⟩

theorem handleData_frame (st : ServerState) (c : ConnId) (meta : ClientMeta) (m : JMsg)
    (now : Nat) :
    (handleData st c meta m now).1.rooms = st.rooms ∧
    (handleData st c meta m now).1.clientMeta = st.clientMeta ∧
    (handleData st c meta m now).1.openConns = st.openConns := by
  unfold handleData
  dsimp only
  split
  · exact ⟨rfl, rfl, rfl⟩
  · split
    · exact ⟨rfl, rfl, rfl⟩
    · obtain ⟨h1, h2, _, h4⟩ := dispatchData_frame (markMsgId st _ _ now) c _ _ m now
      exact ⟨h1, h2, h4⟩

theorem handleMessage_frame (st : ServerState) (c : ConnId) (m : JMsg) (now : Nat)
    (h : m.type ≠ .vStr "CLIENT_HELLO") :
    (handleMessage st c m now).1.rooms = st.rooms ∧
    (handleMessage st c m now).1.clientMeta = st.clientMeta ∧
    (handleMessage st c m now).1.openConns = st.openConns := by
  unfold handleMessage
  rw [if_neg h]
  split
  · exact ⟨rfl, rfl, rfl⟩
  · exact handleData_frame st c _ m now

/-! Dedup-entry preservation. -/

theorem dedupLookup_eq_of (st1 st2 : ServerState)
    (h : st1.dedupMsgIdsByIncident = st2.dedupMsgIdsByIncident) (inc mid : String) :
    dedupLookup st1 inc mid = dedupLookup st2 inc mid := by
  unfold dedupLookup
  rw [h]

theorem dedupLookup_markMsgId_self (st : ServerState) (inc mid : String) (now : Nat) :
    dedupLookup (markMsgId st inc mid now) inc mid = some now := by
  show (alookup (aset st.dedupMsgIdsByIncident inc
      (aset ((alookup st.dedupMsgIdsByIncident inc).getD []) mid now)) inc).bind
      (fun mm => alookup mm mid) = some now
  rw [alookup_aset_self]
  show alookup (aset ((alookup st.dedupMsgIdsByIncident inc).getD []) mid now) mid = some now
  exact alookup_aset_self _ _ _

theorem dedupLookup_markMsgId_other (st : ServerState) (inc1 mid1 : String) (now : Nat)
    (inc mid : String) (hne : ¬(inc1 = inc ∧ mid1 = mid)) :
    dedupLookup (markMsgId st inc1 mid1 now) inc mid = dedupLookup st inc mid := by
  show (alookup (aset st.dedupMsgIdsByIncident inc1
      (aset ((alookup st.dedupMsgIdsByIncident inc1).getD []) mid1 now)) inc).bind
      (fun mm => alookup mm mid) = dedupLookup st inc mid
  by_cases hinc : inc1 = inc
  · subst hinc
    rw [alookup_aset_self]
    have hmid : mid ≠ mid1 := fun hm => hne ⟨rfl, hm.symm⟩
    unfold dedupLookup
    cases hmm : alookup st.dedupMsgIdsByIncident inc1 with
    | none =>
      show alookup (aset ([] : List (String × Nat)) mid1 now) mid = none
      rw [alookup_aset_ne _ _ _ _ hmid]
      rfl
    | some mm =>
      show alookup (aset mm mid1 now) mid = alookup mm mid
      exact alookup_aset_ne _ _ _ _ hmid
  · rw [alookup_aset_ne _ _ _ _ (fun hm => hinc hm.symm)]
    rfl

theorem dedupLookup_sweep (st : ServerState) (now : Nat) (inc mid : String) (t0 : Nat)
    (h : dedupLookup st inc mid = some t0) (hle : now - t0 ≤ DEDUP_TTL_MS) :
    dedupLookup (sweepDedup st now) inc mid = some t0 := by
  unfold dedupLookup at h ⊢
  cases hmm : alookup st.dedupMsgIdsByIncident inc with
  | none => rw [hmm] at h; simp at h
  | some mm =>
    rw [hmm] at h
    rw [Option.some_bind] at h
    have h1 : alookup (st.dedupMsgIdsByIncident.map
        (fun p => (p.1, p.2.filter (fun e => decide (now - e.2 ≤ DEDUP_TTL_MS))))) inc =
        some (mm.filter (fun e => decide (now - e.2 ≤ DEDUP_TTL_MS))) := by
      rw [alookup_map_val, hmm]
      rfl
    have h2 : alookup (mm.filter (fun e => decide (now - e.2 ≤ DEDUP_TTL_MS))) mid = some t0 :=
      alookup_filter _ h (by simpa using hle)
    have h3 : alookup ((st.dedupMsgIdsByIncident.map
        (fun p => (p.1, p.2.filter (fun e => decide (now - e.2 ≤ DEDUP_TTL_MS))))).filter
        (fun p => !p.2.isEmpty)) inc =
        some (mm.filter (fun e => decide (now - e.2 ≤ DEDUP_TTL_MS))) := by
      refine alookup_filter _ h1 ?_
      show (!(mm.filter (fun e => decide (now - e.2 ≤ DEDUP_TTL_MS))).isEmpty) = true
      rw [alookup_isEmpty_false h2]
      rfl
    show (alookup (sweepDedup st now).dedupMsgIdsByIncident inc).bind
      (fun mm2 => alookup mm2 mid) = some t0
    unfold sweepDedup
    rw [h3]
    simpa using h2

theorem handleData_dedup_preserve (st : ServerState) (c : ConnId) (meta : ClientMeta)
    (m : JMsg) (now : Nat) (inc mid : String) (t0 : Nat)
    (h : dedupLookup st inc mid = some t0) :
    dedupLookup (handleData st c meta m now).1 inc mid = some t0 := by
  unfold handleData
  cases hv : validMsgId m.msgId with
  | none => exact h
  | some mid1 =>
    dsimp only
    by_cases hdup : (dedupLookup st meta.incidentId mid1).isSome
    · rw [if_pos hdup]
      exact h
    · rw [if_neg hdup]
      show dedupLookup
        (dispatchData (markMsgId st meta.incidentId mid1 now) c meta mid1 m now).1 inc mid =
        some t0
      rw [dedupLookup_eq_of _ (markMsgId st meta.incidentId mid1 now)
        (dispatchData_frame (markMsgId st meta.incidentId mid1 now) c meta mid1 m now).2.2.1]
      rw [dedupLookup_markMsgId_other st meta.incidentId mid1 now inc mid ?_]
      · exact h
      · rintro ⟨rfl, rfl⟩
        rw [h] at hdup
        simp at hdup

theorem handleMessage_dedup_preserve (st : ServerState) (c : ConnId) (m : JMsg) (now : Nat)
    (inc mid : String) (t0 : Nat) (h : dedupLookup st inc mid = some t0) :
    dedupLookup (handleMessage st c m now).1 inc mid = some t0 := by
  unfold handleMessage
  by_cases hty : m.type = .vStr "CLIENT_HELLO"
  · rw [if_pos hty]
    rw [dedupLookup_eq_of _ st (handleHello_frame st c m now).1]
    exact h
  · rw [if_neg hty]
    cases hmeta : alookup st.clientMeta c with
    | none => exact h
    | some meta => exact handleData_dedup_preserve st c meta m now inc mid t0 h

theorem dedupLookup_step (st : ServerState) (s : Step) (inc mid : String) (t0 : Nat)
    (h : dedupLookup st inc mid = some t0)
    (hs : ∀ t, s = Step.sweep t → t ≤ t0 + DEDUP_TTL_MS) :
    dedupLookup (applyStep st s).1 inc mid = some t0 := by
  cases s with
  | connect c => exact h
  | smsg c m now => exact handleMessage_dedup_preserve st c m now inc mid t0 h
  | sclose c now =>
    show dedupLookup (handleClose st c now).1 inc mid = some t0
    unfold dedupLookup
    rw [(handleClose_frame st c now).1]
    exact h
  | sweep t =>
    exact dedupLookup_sweep st t inc mid t0 h (by have := hs t rfl; omega)

theorem latLng?_eq_none (lat lng : Value) (h : isValidLatLng lat lng = false) :
    latLng? lat lng = none := by
  cases lat <;> cases lng <;> try rfl
  rename_i a b
  simp only [isValidLatLng] at h
  simp only [latLng?]
  rw [if_neg]
  intro hc
  obtain ⟨h1, h2, h3, h4⟩ := hc
  simp [h1, h2, h3, h4] at h

theorem mem_sendEv {st : ServerState} {c : ConnId} {p : Payload} {d : ConnId} {pl : Payload}
    (h : (d, pl) ∈ sendEv st c p) : d = c ∧ pl = p := by
  unfold sendEv at h
  split at h
  · have h2 := List.mem_singleton.mp h
    exact ⟨congrArg Prod.fst h2, congrArg Prod.snd h2⟩
  · simp at h

theorem mem_broadcast {st : ServerState} {inc : String} {p : Payload} {d : ConnId} {pl : Payload}
    (h : (d, pl) ∈ broadcastToIncident st inc p) :
    ∃ conns, alookup st.rooms inc = some conns ∧ d ∈ conns ∧ pl = p ∧ d ∈ st.openConns := by
  unfold broadcastToIncident at h
  cases hr : alookup st.rooms inc with
  | none =>
    rw [hr] at h
    simp at h
  | some conns =>
    rw [hr] at h
    obtain ⟨x, hx, hxe⟩ := List.mem_map.mp h
    have hd : x = d := congrArg Prod.fst hxe
    have hp : p = pl := congrArg Prod.snd hxe
    subst hd
    subst hp
    have hmem := List.mem_filter.mp hx
    exact ⟨conns, rfl, hmem.1, rfl, by simpa using hmem.2⟩

theorem dispatchData_events (st : ServerState) (c : ConnId) (meta : ClientMeta) (mid : String)
    (m : JMsg) (now : Nat) {d : ConnId} {pl : Payload}
    (h : (d, pl) ∈ (dispatchData st c meta mid m now).2) :
    d = c ∨ ∃ conns, alookup st.rooms meta.incidentId = some conns ∧ d ∈ conns := by
  unfold dispatchData at h
  dsimp only at h
  repeat' split at h
  all_goals
    first
      | exact Or.inl (mem_sendEv h).1
      | · obtain ⟨conns, h1, h2, h3, h4⟩ := mem_broadcast h
          exact Or.inr ⟨conns, h1, h2⟩

theorem dedupLookup_runSteps (st : ServerState) (ss : List Step) (inc mid : String) (t0 : Nat)
    (h : dedupLookup st inc mid = some t0)
    (hs : ∀ t, Step.sweep t ∈ ss → t ≤ t0 + DEDUP_TTL_MS) :
    dedupLookup (runSteps st ss) inc mid = some t0 := by
  induction ss generalizing st with
  | nil => exact h
  | cons s rest ih =>
    show dedupLookup (runSteps (applyStep st s).1 rest) inc mid = some t0
    refine ih (applyStep st s).1 ?_ ?_
    · exact dedupLookup_step st s inc mid t0 h (fun t hts => hs t (by rw [hts]; exact List.mem_cons_self _ _))
    · exact fun t ht => hs t (List.mem_cons_of_mem _ ht)

/-- The room/metadata correspondence claimed in the spec: every connection in
`rooms[i]` has a metadata entry whose `incidentId` equals `i`. -/
def roomsConsistent (st : ServerState) : Prop :=
  ∀ p ∈ st.rooms, ∀ c2 ∈ p.2,
    (alookup st.clientMeta c2).map (fun md => md.incidentId) = some p.1

/-- Guard on a stimulus: a `CLIENT_HELLO` that would complete (both coercions
non-empty) from an already-bound connection must name the connection's current
incident.  All other stimuli are unrestricted. -/
def helloSafe (st : ServerState) : Step → Prop
  | .smsg c m _ =>
    m.type = .vStr "CLIENT_HELLO" → coerceStr m.incidentId ≠ "" →
      coerceStr m.responderId ≠ "" →
      ∀ meta0, alookup st.clientMeta c = some meta0 →
        coerceStr m.incidentId = meta0.incidentId
  | _ => True

instance roomsConsistentDecidable (st : ServerState) : Decidable (roomsConsistent st) := by
  unfold roomsConsistent
  infer_instance

/-- States reachable from startup by stimuli satisfying `helloSafe` (no
re-binding handshake of a bound connection into a different incident). -/
inductive ReachableG : ServerState → Prop
  | init : ReachableG initialState
  | step (st : ServerState) (s : Step) : ReachableG st → helloSafe st s →
      ReachableG (applyStep st s).1

theorem alookup_eq_none_not_mem {α β : Type} [DecidableEq α] {l : List (α × β)} {k : α}
    (h : alookup l k = none) : ∀ v, (k, v) ∉ l := by
  induction l with
  | nil =>
    intro v hv
    simp at hv
  | cons hd t ih =>
    obtain ⟨k0, v0⟩ := hd
    by_cases hk : k0 = k
    · subst hk
      rw [alookup, if_pos rfl] at h
      cases h
    · rw [alookup, if_neg hk] at h
      intro v hv
      rcases List.mem_cons.mp hv with hv | hv
      · exact hk (congrArg Prod.fst hv).symm
      · exact ih h v hv

theorem roomsConsistent_eq_of (st1 st2 : ServerState) (hr : st1.rooms = st2.rooms)
    (hm : st1.clientMeta = st2.clientMeta) (h : roomsConsistent st2) : roomsConsistent st1 := by
  unfold roomsConsistent at h ⊢
  rw [hr, hm]
  exact h

/-- Extract the bound metadata from a `roomsConsistent` conclusion. -/
theorem map_incidentId_some {l : List (ConnId × ClientMeta)} {c2 : ConnId} {x : String}
    (h : (alookup l c2).map (fun md => md.incidentId) = some x) :
    ∃ md, alookup l c2 = some md ∧ md.incidentId = x := by
  cases hl : alookup l c2 with
  | none =>
    rw [hl] at h
    simp at h
  | some md =>
    rw [hl] at h
    exact ⟨md, rfl, by simpa using h⟩

theorem strongInv_step (st : ServerState) (s : Step)
    (hk : keysNodup st.rooms) (hc : roomsConsistent st) (hs : helloSafe st s) :
    keysNodup (applyStep st s).1.rooms ∧ roomsConsistent (applyStep st s).1 := by
  cases s with
  | connect c =>
    exact ⟨hk, roomsConsistent_eq_of _ st rfl rfl hc⟩
  | sweep t =>
    exact ⟨hk, roomsConsistent_eq_of _ st rfl rfl hc⟩
  | sclose c now =>
    show keysNodup (handleClose st c now).1.rooms ∧ roomsConsistent (handleClose st c now).1
    unfold handleClose
    dsimp only
    cases hmm : alookup st.clientMeta c with
    | none =>
      exact ⟨hk, roomsConsistent_eq_of _ st rfl rfl hc⟩
    | some meta =>
      dsimp only
      cases hroom : alookup st.rooms meta.incidentId with
      | none =>
        dsimp only
        refine ⟨hk, ?_⟩
        intro p hp c2 hc2
        have hcm := hc p hp c2 hc2
        by_cases hcc : c2 = c
        · subst hcc
          obtain ⟨md, hmd, hmdi⟩ := map_incidentId_some hcm
          rw [hmm] at hmd
          cases hmd
          have hnm := alookup_eq_none_not_mem hroom p.2
          rw [hmdi] at hnm
          exact absurd hp hnm
        · rw [alookup_aerase_ne _ _ _ hcc]
          exact hcm
      | some conns =>
        dsimp only
        by_cases hempty : conns.filter (fun x => x ≠ c) = []
        · rw [if_pos hempty]
          refine ⟨keysNodup_aerase _ hk, ?_⟩
          intro p hp c2 hc2
          obtain ⟨hpmem, hpne⟩ := mem_aerase_nodup hk hp
          have hcm := hc p hpmem c2 hc2
          by_cases hcc : c2 = c
          · subst hcc
            obtain ⟨md, hmd, hmdi⟩ := map_incidentId_some hcm
            rw [hmm] at hmd
            cases hmd
            exact absurd hmdi (fun he => hpne he.symm)
          · rw [alookup_aerase_ne _ _ _ hcc]
            exact hcm
        · rw [if_neg hempty]
          refine ⟨keysNodup_aset _ _ hk, ?_⟩
          intro p hp c2 hc2
          rcases mem_aset_nodup hk hp with hpe | ⟨hpmem, hpne⟩
          · subst hpe
            have hf := List.mem_filter.mp hc2
            have hc2conns : c2 ∈ conns := hf.1
            have hc2ne : c2 ≠ c := by simpa using hf.2
            have hcm := hc (meta.incidentId, conns) (alookup_mem hroom) c2 hc2conns
            rw [alookup_aerase_ne _ _ _ hc2ne]
            exact hcm
          · have hcm := hc p hpmem c2 hc2
            by_cases hcc : c2 = c
            · subst hcc
              obtain ⟨md, hmd, hmdi⟩ := map_incidentId_some hcm
              rw [hmm] at hmd
              cases hmd
              exact absurd hmdi (fun he => hpne he.symm)
            · rw [alookup_aerase_ne _ _ _ hcc]
              exact hcm
  | smsg c m now =>
    show keysNodup (handleMessage st c m now).1.rooms ∧
      roomsConsistent (handleMessage st c m now).1
    by_cases hty : m.type = .vStr "CLIENT_HELLO"
    · unfold handleMessage
      rw [if_pos hty]
      unfold handleHello
      dsimp only
      by_cases hemp : coerceStr m.incidentId = "" ∨ coerceStr m.responderId = ""
      · rw [if_pos hemp]
        exact ⟨hk, roomsConsistent_eq_of _ st rfl rfl hc⟩
      · rw [if_neg hemp]
        push_neg at hemp
        obtain ⟨hne1, hne2⟩ := hemp
        have hsafe : ∀ meta0, alookup st.clientMeta c = some meta0 →
            coerceStr m.incidentId = meta0.incidentId := hs hty hne1 hne2
        unfold helloBoundState
        dsimp only
        constructor
        · exact keysNodup_aset _ _ hk
        · intro p hp c2 hc2
          rcases mem_aset_nodup hk hp with hpe | ⟨hpmem, hpne⟩
          · subst hpe
            rcases mem_setAdd hc2 with hin | hceq
            · cases hroom : alookup st.rooms (coerceStr m.incidentId) with
              | none =>
                rw [hroom] at hin
                simp at hin
              | some conns =>
                rw [hroom] at hin
                simp only [Option.getD_some] at hin
                have hcm := hc (coerceStr m.incidentId, conns) (alookup_mem hroom) c2 hin
                by_cases hcc : c2 = c
                · subst hcc
                  rw [alookup_aset_self]
                  rfl
                · rw [alookup_aset_ne _ _ _ _ hcc]
                  exact hcm
            · subst hceq
              rw [alookup_aset_self]
              rfl
          · have hcm := hc p hpmem c2 hc2
            by_cases hcc : c2 = c
            · subst hcc
              obtain ⟨md, hmd, hmdi⟩ := map_incidentId_some hcm
              have hci := hsafe md hmd
              exact absurd (hci.trans hmdi) (fun he => hpne he.symm)
            · rw [alookup_aset_ne _ _ _ _ hcc]
              exact hcm
    · have hfr := handleMessage_frame st c m now hty
      refine ⟨?_, ?_⟩
      · rw [hfr.1]
        exact hk
      · exact roomsConsistent_eq_of _ st hfr.1 hfr.2.1 hc

theorem reachableG_strongInv (st : ServerState) (h : ReachableG st) :
    keysNodup st.rooms ∧ roomsConsistent st := by
  induction h with
  | init =>
    refine ⟨by simp [initialState, keysNodup], ?_⟩
    intro p hp
    simp [initialState] at hp
  | step st1 s hr hsafe ih => exact strongInv_step st1 s ih.1 ih.2 hsafe

theorem flushGo_spec (pending : List (String × OutboxItem)) (now : Nat) (l : List OutboxItem) :
    flushGo pending now l =
      (replaceFirstBy (flushTrigger pending now) (fun it => sentVersion it now) l,
        (l.find? (flushTrigger pending now)).map (fun it => sentVersion it now)) := by
  induction l with
  | nil => rfl
  | cons it rest ih =>
    by_cases h1 : (alookup pending it.msgId).isSome = true
    · by_cases h2 : now - (it.lastSentAt.getD 0) > RESEND_AFTER_MS
      · have ht : flushTrigger pending now it = true := by
          simp [flushTrigger, h1, h2]
        rw [flushGo, if_neg (by simp [h1]), if_pos h2, replaceFirstBy, if_pos ht,
          List.find?_cons_of_pos _ ht]
        rfl
      · have ht : flushTrigger pending now it = false := by
          simp [flushTrigger, h1, h2]
        rw [flushGo, if_neg (by simp [h1]), if_neg h2, replaceFirstBy, if_neg (by simp [ht]),
          List.find?_cons_of_neg _ (by simp [ht]), ih]
    · have ht : flushTrigger pending now it = true := by
        simp [flushTrigger, h1]
      rw [flushGo, if_pos (by simp [h1]), replaceFirstBy, if_pos ht,
        List.find?_cons_of_pos _ ht]
      rfl

theorem replaceFirstBy_of_none (p : OutboxItem → Bool) (f : OutboxItem → OutboxItem)
    (l : List OutboxItem) (h : l.find? p = none) : replaceFirstBy p f l = l := by
  induction l with
  | nil => rfl
  | cons x xs ih =>
    have hx : p x = false := by
      have := List.find?_eq_none.mp h x (List.mem_cons_self _ _)
      simpa using this
    rw [replaceFirstBy, if_neg (by simp [hx])]
    rw [ih (by rwa [List.find?_cons_of_neg _ (by simp [hx])] at h)]

/-! Claim theorems. -/

/-- C7 (amended): on a flush tick with the transport open, at most one item is
sent, chosen by a single head-first walk: the first outbox item that is either
not in `pending` or whose `now - lastSentAt` exceeds `RESEND_AFTER_MS` is
(re)sent — so a timed-out pending item earlier in the order takes precedence
over a later item that was never sent; it is updated in place and inserted
into `pending`; if no item triggers, nothing happens. -/
theorem flush_sends_first_triggered (st : ClientState) (now : Nat) (h : st.connected = true) :
    flushOutbox st now =
      match st.outbox.find? (flushTrigger st.pending now) with
      | none => (st, none)
      | some it =>
        ({ st with
            outbox := replaceFirstBy (flushTrigger st.pending now)
              (fun x => sentVersion x now) st.outbox,
            pending := aset st.pending (sentVersion it now).msgId (sentVersion it now) },
          some (sentVersion it now)) := by
  unfold flushOutbox
  rw [if_pos h, flushGo_spec]
  cases hf : st.outbox.find? (flushTrigger st.pending now) with
  | none =>
    rw [replaceFirstBy_of_none _ _ _ hf]
    rfl
  | some it => rfl

/-- Witness for `flush_sends_first_triggered`: on the concrete client
`clientW` (pending `itemA` sent at 1000, fresh `itemB`), the tick at
`now = 10000` resends `itemA`. -/
theorem flush_sends_first_triggered_witness :
    flushOutbox clientW 10000 =
      match clientW.outbox.find? (flushTrigger clientW.pending 10000) with
      | none => (clientW, none)
      | some it =>
        ({ clientW with
            outbox := replaceFirstBy (flushTrigger clientW.pending 10000)
              (fun x => sentVersion x 10000) clientW.outbox,
            pending := aset clientW.pending (sentVersion it 10000).msgId
              (sentVersion it 10000) },
          some (sentVersion it 10000)) :=
  flush_sends_first_triggered clientW 10000 rfl

/-- C7 counterexample: in `clientW` the first outbox item not in `pending` is
`itemB` (`itemA` is pending but timed out ahead of it), yet the tick sends
`itemA`, not `itemB` — the walk is a single interleaved pass, not the claimed
two-phase rule "first non-pending item, else first timed-out". -/
theorem flush_not_two_phase_cex :
    alookup clientW.pending "b" = none ∧
    (alookup clientW.pending "a").isSome = true ∧
    clientW.outbox.map (fun x => x.msgId) = ["a", "b"] ∧
    (flushOutbox clientW 10000).2.map (fun x => x.msgId) = some "a" := by decide

/-- C8 (amended): for an accepted `SOS_RAISE` the note is kept in the stored
`SosState` and in the broadcast payload iff the incoming note is a non-empty
string: non-strings are dropped, and — by the truthiness spread
`...(note ? { note } : {})` — the empty string is dropped as well. -/
theorem sos_note_kept_iff_nonempty_string (st : ServerState) (c : ConnId) (m : JMsg)
    (now : Nat) (meta : ClientMeta) (mid : String)
    (hmeta : alookup st.clientMeta c = some meta)
    (hty : m.type = .vStr "SOS_RAISE")
    (hid : m.msgId = .vStr mid) (htr : trimEmpty mid = false)
    (hfresh : dedupLookup st meta.incidentId mid = none) :
    sosLookup (handleMessage st c m now).1 meta.incidentId meta.responderId =
      some ⟨noteOf m.note, now⟩ ∧
    (∀ d sosSt, (d, .pSosRaise mid meta.incidentId meta.responderId sosSt) ∈
      (handleMessage st c m now).2 → sosSt = ⟨noteOf m.note, now⟩) ∧
    (∀ s, noteOf m.note = some s ↔ (m.note = .vStr s ∧ s ≠ "")) := by
  have hne : m.type ≠ Value.vStr "CLIENT_HELLO" := by
    rw [hty]
    decide
  have hv : validMsgId m.msgId = some mid := by
    rw [hid]
    simp [validMsgId, htr]
  have hdisp : dispatchData (markMsgId st meta.incidentId mid now) c meta mid m now =
      (sosRaiseState (markMsgId st meta.incidentId mid now) meta (noteOf m.note) now,
        broadcastToIncident
          (sosRaiseState (markMsgId st meta.incidentId mid now) meta (noteOf m.note) now)
          meta.incidentId
          (.pSosRaise mid meta.incidentId meta.responderId ⟨noteOf m.note, now⟩)) := by
    simp [dispatchData, hty, sosRaiseState]
  have hfirst : handleMessage st c m now =
      (sosRaiseState (markMsgId st meta.incidentId mid now) meta (noteOf m.note) now,
        sendEv (markMsgId st meta.incidentId mid now) c (.pAckMsg mid now) ++
          broadcastToIncident
            (sosRaiseState (markMsgId st meta.incidentId mid now) meta (noteOf m.note) now)
            meta.incidentId
            (.pSosRaise mid meta.incidentId meta.responderId ⟨noteOf m.note, now⟩)) := by
    simp only [handleMessage, if_neg hne, hmeta, handleData, hv, hfresh, Option.isSome_none,
      Bool.false_eq_true, if_false, hdisp]
  refine ⟨?_, ?_, ?_⟩
  · rw [hfirst]
    show sosLookup (sosRaiseState (markMsgId st meta.incidentId mid now) meta
      (noteOf m.note) now) meta.incidentId meta.responderId = some ⟨noteOf m.note, now⟩
    unfold sosLookup sosRaiseState
    rw [alookup_aset_self]
    show alookup (aset ((alookup (markMsgId st meta.incidentId mid now).activeSosByIncident
        meta.incidentId).getD []) meta.responderId (SosState.mk (noteOf m.note) now))
      meta.responderId = some (SosState.mk (noteOf m.note) now)
    exact alookup_aset_self _ _ _
  · intro d sosSt hmem
    rw [hfirst] at hmem
    rcases List.mem_append.mp hmem with hmem | hmem
    · have := (mem_sendEv hmem).2
      cases this
    · obtain ⟨conns, _, _, hpl, _⟩ := mem_broadcast hmem
      cases hpl
      rfl
  · intro s
    cases hmn : m.note with
    | vStr s0 =>
      by_cases h0 : s0 = ""
      · subst h0
        constructor
        · intro hsome
          simp [noteOf] at hsome
        · rintro ⟨heq, hne2⟩
          cases heq
          exact absurd rfl hne2
      · constructor
        · intro hsome
          simp only [noteOf, if_neg h0] at hsome
          cases hsome
          exact ⟨rfl, h0⟩
        · rintro ⟨heq, hne2⟩
          cases heq
          simp [noteOf, h0]
    | vNum q => simp [noteOf]
    | vNaN => simp [noteOf]
    | vBool b => simp [noteOf]
    | vNull => simp [noteOf]
    | vUndef => simp [noteOf]
    | vObj s1 => simp [noteOf]

/-- Witness for `sos_note_kept_iff_nonempty_string`: an accepted
`SOS_RAISE{msgId:"s2", note:"trapped"}` stores and broadcasts the note. -/
theorem sos_note_kept_iff_nonempty_string_witness :
    sosLookup (handleMessage ⟨[("I1", [0])], [(0, ⟨"I1", "A"⟩)], [], [], [], [0]⟩ 0
        (sosMsgF "s2" (.vStr "trapped")) 7).1 "I1" "A" =
      some ⟨noteOf (sosMsgF "s2" (.vStr "trapped")).note, 7⟩ ∧
    (∀ d sosSt, (d, .pSosRaise "s2" "I1" "A" sosSt) ∈
      (handleMessage ⟨[("I1", [0])], [(0, ⟨"I1", "A"⟩)], [], [], [], [0]⟩ 0
        (sosMsgF "s2" (.vStr "trapped")) 7).2 →
      sosSt = ⟨noteOf (sosMsgF "s2" (.vStr "trapped")).note, 7⟩) ∧
    (∀ s, noteOf (sosMsgF "s2" (.vStr "trapped")).note = some s ↔
      ((sosMsgF "s2" (.vStr "trapped")).note = .vStr s ∧ s ≠ "")) :=
  sos_note_kept_iff_nonempty_string ⟨[("I1", [0])], [(0, ⟨"I1", "A"⟩)], [], [], [], [0]⟩ 0
    (sosMsgF "s2" (.vStr "trapped")) 7 ⟨"I1", "A"⟩ "s2" (by decide) rfl rfl (by decide) (by decide)

/-- C8 counterexample: `SOS_RAISE{msgId:"s1", note:""}` is accepted, but the
stored `SosState` and the broadcast drop the note, contradicting "any string
note, including the empty string, is preserved". -/
theorem sos_empty_note_dropped_cex :
    (sosMsgF "s1" (.vStr "")).note = .vStr "" ∧
    sosLookup (handleMessage ⟨[("I1", [0])], [(0, ⟨"I1", "A"⟩)], [], [], [], [0]⟩ 0
        (sosMsgF "s1" (.vStr "")) 7).1 "I1" "A" = some ⟨none, 7⟩ ∧
    (handleMessage ⟨[("I1", [0])], [(0, ⟨"I1", "A"⟩)], [], [], [], [0]⟩ 0
        (sosMsgF "s1" (.vStr "")) 7).2 =
      [(0, .pAckMsg "s1" 7), (0, .pSosRaise "s1" "I1" "A" ⟨none, 7⟩)] := by decide

/-- C2 counterexample: through a second `CLIENT_HELLO` the claim fails on a
reachable state: connection 1 joins `I1`, then re-hellos into `I2` (staying in
`rooms["I1"]`); a chat sent by connection 0, which is bound to `I1`, is then
delivered to connection 1 although connection 1's binding is to `I2`. -/
theorem cross_incident_delivery_cex :
    alookup (runSteps initialState [.connect 0, .smsg 0 (helloMsg "I1" "A") 0, .connect 1,
      .smsg 1 (helloMsg "I1" "B") 0, .smsg 1 (helloMsg "I2" "B") 1]).clientMeta 0 =
      some ⟨"I1", "A"⟩ ∧
    alookup (runSteps initialState [.connect 0, .smsg 0 (helloMsg "I1" "A") 0, .connect 1,
      .smsg 1 (helloMsg "I1" "B") 0, .smsg 1 (helloMsg "I2" "B") 1]).clientMeta 1 =
      some ⟨"I2", "B"⟩ ∧
    (1, .pChat "m1" "I1" "A" "hi" 5) ∈
      (handleMessage (runSteps initialState [.connect 0, .smsg 0 (helloMsg "I1" "A") 0,
        .connect 1, .smsg 1 (helloMsg "I1" "B") 0, .smsg 1 (helloMsg "I2" "B") 1]) 0
        (chatMsgF "m1" "hi") 5).2 := by decide

/-- C2 (amended): every frame emitted while processing a data message goes to
the sender itself or to a member of `rooms` at the sender's bound incident; in
any state satisfying `roomsConsistent` (which holds for all states reachable
without a cross-incident re-hello, see C3) each such recipient is bound to the
sender's incident. -/
theorem broadcast_within_room (st : ServerState) (c : ConnId) (m : JMsg) (now : Nat)
    (meta : ClientMeta)
    (hmeta : alookup st.clientMeta c = some meta)
    (hty : m.type ≠ .vStr "CLIENT_HELLO")
    (hcons : roomsConsistent st) :
    ∀ d pl, (d, pl) ∈ (handleMessage st c m now).2 →
      d = c ∨ (∃ conns, alookup st.rooms meta.incidentId = some conns ∧ d ∈ conns ∧
        ∃ md, alookup st.clientMeta d = some md ∧ md.incidentId = meta.incidentId) := by
  intro d pl hmem
  unfold handleMessage at hmem
  rw [if_neg hty, hmeta] at hmem
  have hmem2 : (d, pl) ∈ (handleData st c meta m now).2 := hmem
  unfold handleData at hmem2
  cases hv : validMsgId m.msgId with
  | none =>
    rw [hv] at hmem2
    exact Or.inl (mem_sendEv hmem2).1
  | some mid =>
    rw [hv] at hmem2
    dsimp only at hmem2
    by_cases hdup : (dedupLookup st meta.incidentId mid).isSome = true
    · rw [if_pos hdup] at hmem2
      exact Or.inl (mem_sendEv hmem2).1
    · rw [if_neg hdup] at hmem2
      rcases List.mem_append.mp hmem2 with hm | hm
      · exact Or.inl (mem_sendEv hm).1
      · rcases dispatchData_events (markMsgId st meta.incidentId mid now) c meta mid m now hm
          with hd | ⟨conns, hc1, hc2⟩
        · exact Or.inl hd
        · have hc1b : alookup st.rooms meta.incidentId = some conns := hc1
          have hpmem : (meta.incidentId, conns) ∈ st.rooms := alookup_mem hc1b
          obtain ⟨md, hmd, hmdi⟩ := map_incidentId_some (hcons _ hpmem d hc2)
          exact Or.inr ⟨conns, hc1b, hc2, md, hmd, hmdi⟩

/-- Witness for `broadcast_within_room`: two responders bound to `I1`; the
delivery of sender 0's chat echo to connection 1 is covered by the theorem:
connection 1 is a member of `rooms["I1"]` and is bound to `I1`. -/
theorem broadcast_within_room_witness :
    1 = 0 ∨ (∃ conns, alookup (runSteps initialState [.connect 0,
        .smsg 0 (helloMsg "I1" "A") 0, .connect 1,
        .smsg 1 (helloMsg "I1" "B") 0]).rooms "I1" = some conns ∧ 1 ∈ conns ∧
      ∃ md, alookup (runSteps initialState [.connect 0, .smsg 0 (helloMsg "I1" "A") 0,
        .connect 1, .smsg 1 (helloMsg "I1" "B") 0]).clientMeta 1 = some md ∧
        md.incidentId = "I1") :=
  broadcast_within_room (runSteps initialState [.connect 0, .smsg 0 (helloMsg "I1" "A") 0,
      .connect 1, .smsg 1 (helloMsg "I1" "B") 0]) 0 (chatMsgF "m1" "hi") 5 ⟨"I1", "A"⟩
    (by decide) (by decide) (by decide) 1 (.pChat "m1" "I1" "A" "hi" 5) (by decide)

/-- C3 counterexample: the invariant is not preserved by the handshake on an
already-bound connection: after hello into `I1` and a second hello into `I2`,
connection 0 is still in `rooms["I1"]` but its metadata names `I2`. -/
theorem rooms_meta_invariant_cex :
    alookup (runSteps initialState [.connect 0, .smsg 0 (helloMsg "I1" "A") 0,
      .smsg 0 (helloMsg "I2" "A") 1]).rooms "I1" = some [0] ∧
    alookup (runSteps initialState [.connect 0, .smsg 0 (helloMsg "I1" "A") 0,
      .smsg 0 (helloMsg "I2" "A") 1]).clientMeta 0 = some ⟨"I2", "A"⟩ ∧
    ¬ roomsConsistent (runSteps initialState [.connect 0, .smsg 0 (helloMsg "I1" "A") 0,
      .smsg 0 (helloMsg "I2" "A") 1]) := by decide

/-- C3 (amended): the invariant "every connection in `rooms[i]` has a
metadata entry naming `i`" holds in every state reachable from startup when no
completing `CLIENT_HELLO` re-binds an already-bound connection to a different
incident; it is preserved by handshakes of unbound connections, data-message
handling, sweeps, connects and disconnect cleanup. -/
theorem rooms_meta_invariant (st : ServerState) (h : ReachableG st) :
    roomsConsistent st :=
  (reachableG_strongInv st h).2

/-- Witness for `rooms_meta_invariant`: the state reached by connecting and
completing a first handshake satisfies the invariant. -/
theorem rooms_meta_invariant_witness :
    roomsConsistent (applyStep (applyStep initialState (Step.connect 0)).1
      (Step.smsg 0 (helloMsg "I1" "A") 0)).1 :=
  rooms_meta_invariant _
    (ReachableG.step _ _ (ReachableG.step _ _ ReachableG.init trivial)
      (fun _ _ _ meta0 hm => by simp [initialState, stepConnect, alookup] at hm))

/-- C5 counterexample: a second `CLIENT_HELLO` on the bound connection 0 is
not rejected: no `ERROR` is sent; instead the metadata is re-bound to
`(I2, B)`, the connection is added to `rooms["I2"]` (and stays in
`rooms["I1"]`), and `ACK` plus `INCIDENT_SNAPSHOT` are emitted. -/
theorem second_hello_not_rejected_cex :
    alookup (runSteps initialState [.connect 0, .smsg 0 (helloMsg "I1" "A") 0]).clientMeta 0 =
      some ⟨"I1", "A"⟩ ∧
    (handleMessage (runSteps initialState [.connect 0, .smsg 0 (helloMsg "I1" "A") 0]) 0
        (helloMsg "I2" "B") 3).2 =
      [(0, .pAck "I2" 3), (0, .pSnapshot "I2" ["B"] [] [] 3)] ∧
    alookup (handleMessage (runSteps initialState [.connect 0, .smsg 0 (helloMsg "I1" "A") 0]) 0
        (helloMsg "I2" "B") 3).1.clientMeta 0 = some ⟨"I2", "B"⟩ ∧
    alookup (handleMessage (runSteps initialState [.connect 0, .smsg 0 (helloMsg "I1" "A") 0]) 0
        (helloMsg "I2" "B") 3).1.rooms "I2" = some [0] ∧
    alookup (handleMessage (runSteps initialState [.connect 0, .smsg 0 (helloMsg "I1" "A") 0]) 0
        (helloMsg "I2" "B") 3).1.rooms "I1" = some [0] := by decide

/-- C5 (amended): a `CLIENT_HELLO` on an already-bound connection is processed
exactly like a first handshake: with both fields coercing to non-empty
strings the metadata is re-bound, the connection is added to the named room
(other rooms, including the old one, are left as they were), and `ACK`
followed by `INCIDENT_SNAPSHOT` is emitted; no `ERROR` occurs (an `ERROR`
arises only from missing/empty fields). -/
theorem second_hello_rebinds (st : ServerState) (c : ConnId) (m : JMsg) (now : Nat)
    (meta0 : ClientMeta)
    (hbound : alookup st.clientMeta c = some meta0)
    (hty : m.type = .vStr "CLIENT_HELLO")
    (hne1 : coerceStr m.incidentId ≠ "") (hne2 : coerceStr m.responderId ≠ "")
    (hopen : c ∈ st.openConns) :
    handleMessage st c m now = handleHello st c m now ∧
    alookup (handleMessage st c m now).1.clientMeta c =
      some ⟨coerceStr m.incidentId, coerceStr m.responderId⟩ ∧
    (∃ conns, alookup (handleMessage st c m now).1.rooms (coerceStr m.incidentId) =
      some conns ∧ c ∈ conns) ∧
    (handleMessage st c m now).2 =
      [(c, .pAck (coerceStr m.incidentId) now),
        (c, .pSnapshot (coerceStr m.incidentId)
          (getIncidentResponderIds (handleMessage st c m now).1 (coerceStr m.incidentId))
          (getIncidentLocations (handleMessage st c m now).1 (coerceStr m.incidentId))
          (getIncidentSos (handleMessage st c m now).1 (coerceStr m.incidentId)) now)] ∧
    ∀ i conns0, i ≠ coerceStr m.incidentId → alookup st.rooms i = some conns0 →
      alookup (handleMessage st c m now).1.rooms i = some conns0 := by
  have he : handleMessage st c m now = handleHello st c m now := by
    unfold handleMessage
    rw [if_pos hty]
  have hemp : ¬(coerceStr m.incidentId = "" ∨ coerceStr m.responderId = "") :=
    fun hor => hor.elim hne1 hne2
  have hh : handleHello st c m now =
      (helloBoundState st c (coerceStr m.incidentId) (coerceStr m.responderId),
        sendEv (helloBoundState st c (coerceStr m.incidentId) (coerceStr m.responderId)) c
          (.pAck (coerceStr m.incidentId) now) ++
        sendEv (helloBoundState st c (coerceStr m.incidentId) (coerceStr m.responderId)) c
          (.pSnapshot (coerceStr m.incidentId)
            (getIncidentResponderIds (helloBoundState st c (coerceStr m.incidentId)
              (coerceStr m.responderId)) (coerceStr m.incidentId))
            (getIncidentLocations (helloBoundState st c (coerceStr m.incidentId)
              (coerceStr m.responderId)) (coerceStr m.incidentId))
            (getIncidentSos (helloBoundState st c (coerceStr m.incidentId)
              (coerceStr m.responderId)) (coerceStr m.incidentId)) now)) := by
    unfold handleHello
    rw [if_neg hemp]
  have hopen2 : c ∈ (helloBoundState st c (coerceStr m.incidentId)
      (coerceStr m.responderId)).openConns := hopen
  refine ⟨he, ?_, ?_, ?_, ?_⟩
  · rw [he, hh]
    show alookup (aset st.clientMeta c ⟨coerceStr m.incidentId, coerceStr m.responderId⟩) c = _
    exact alookup_aset_self _ _ _
  · rw [he, hh]
    refine ⟨setAdd ((alookup st.rooms (coerceStr m.incidentId)).getD []) c, ?_, ?_⟩
    · show alookup (aset st.rooms (coerceStr m.incidentId)
        (setAdd ((alookup st.rooms (coerceStr m.incidentId)).getD []) c))
        (coerceStr m.incidentId) = _
      exact alookup_aset_self _ _ _
    · exact self_mem_setAdd _ c
  · rw [he, hh]
    rw [sendEv, if_pos hopen2, sendEv, if_pos hopen2]
    rfl
  · intro i conns0 hi h0
    rw [he, hh]
    show alookup (aset st.rooms (coerceStr m.incidentId)
      (setAdd ((alookup st.rooms (coerceStr m.incidentId)).getD []) c)) i = some conns0
    rw [alookup_aset_ne _ _ _ _ hi]
    exact h0

/-- Witness for `second_hello_rebinds`: connection 0, already bound to
`(I1, A)`, sends `CLIENT_HELLO{I2, B}` and is re-bound with ACK/snapshot. -/
theorem second_hello_rebinds_witness :
    handleMessage ⟨[("I1", [0])], [(0, ⟨"I1", "A"⟩)], [], [], [], [0]⟩ 0
        (helloMsg "I2" "B") 3 =
      handleHello ⟨[("I1", [0])], [(0, ⟨"I1", "A"⟩)], [], [], [], [0]⟩ 0 (helloMsg "I2" "B") 3 ∧
    alookup (handleMessage ⟨[("I1", [0])], [(0, ⟨"I1", "A"⟩)], [], [], [], [0]⟩ 0
        (helloMsg "I2" "B") 3).1.clientMeta 0 =
      some ⟨coerceStr (helloMsg "I2" "B").incidentId, coerceStr (helloMsg "I2" "B").responderId⟩ ∧
    (∃ conns, alookup (handleMessage ⟨[("I1", [0])], [(0, ⟨"I1", "A"⟩)], [], [], [], [0]⟩ 0
        (helloMsg "I2" "B") 3).1.rooms (coerceStr (helloMsg "I2" "B").incidentId) =
      some conns ∧ 0 ∈ conns) ∧
    (handleMessage ⟨[("I1", [0])], [(0, ⟨"I1", "A"⟩)], [], [], [], [0]⟩ 0
        (helloMsg "I2" "B") 3).2 =
      [(0, .pAck (coerceStr (helloMsg "I2" "B").incidentId) 3),
        (0, .pSnapshot (coerceStr (helloMsg "I2" "B").incidentId)
          (getIncidentResponderIds (handleMessage ⟨[("I1", [0])], [(0, ⟨"I1", "A"⟩)], [], [], [],
            [0]⟩ 0 (helloMsg "I2" "B") 3).1 (coerceStr (helloMsg "I2" "B").incidentId))
          (getIncidentLocations (handleMessage ⟨[("I1", [0])], [(0, ⟨"I1", "A"⟩)], [], [], [],
            [0]⟩ 0 (helloMsg "I2" "B") 3).1 (coerceStr (helloMsg "I2" "B").incidentId))
          (getIncidentSos (handleMessage ⟨[("I1", [0])], [(0, ⟨"I1", "A"⟩)], [], [], [],
            [0]⟩ 0 (helloMsg "I2" "B") 3).1 (coerceStr (helloMsg "I2" "B").incidentId)) 3)] ∧
    ∀ i conns0, i ≠ coerceStr (helloMsg "I2" "B").incidentId →
      alookup (⟨[("I1", [0])], [(0, ⟨"I1", "A"⟩)], [], [], [], [0]⟩ : ServerState).rooms i =
        some conns0 →
      alookup (handleMessage ⟨[("I1", [0])], [(0, ⟨"I1", "A"⟩)], [], [], [], [0]⟩ 0
        (helloMsg "I2" "B") 3).1.rooms i = some conns0 :=
  second_hello_rebinds ⟨[("I1", [0])], [(0, ⟨"I1", "A"⟩)], [], [], [], [0]⟩ 0
    (helloMsg "I2" "B") 3 ⟨"I1", "A"⟩ (by decide) rfl (by decide) (by decide) (by decide)

/-- C1: within the dedup TTL the side-effect of a `msgId` runs at most once —
only on the first sighting — while the sender is acknowledged both times: the
first processing of a fresh `msgId` emits `ACK_MSG` to the sender, and after
any further stimuli whose sweeps stay within `DEDUP_TTL_MS` of the first
sighting, a second data message carrying the same `msgId` from a connection
bound to the same incident leaves the server state completely unchanged and
emits exactly the `ACK_MSG` reply to its sender. -/
theorem dedup_effect_at_most_once (st : ServerState) (c : ConnId) (m1 m2 : JMsg)
    (meta : ClientMeta) (mid : String) (now1 : Nat) (ss : List Step)
    (c2 : ConnId) (meta2 : ClientMeta) (now2 : Nat)
    (hmeta : alookup st.clientMeta c = some meta)
    (h1ty : m1.type ≠ .vStr "CLIENT_HELLO") (h1id : m1.msgId = .vStr mid)
    (htr : trimEmpty mid = false)
    (hfresh : dedupLookup st meta.incidentId mid = none)
    (hopen : c ∈ st.openConns)
    (hsweeps : ∀ t, Step.sweep t ∈ ss → t ≤ now1 + DEDUP_TTL_MS)
    (hmeta2 : alookup (runSteps (handleMessage st c m1 now1).1 ss).clientMeta c2 = some meta2)
    (hinc2 : meta2.incidentId = meta.incidentId)
    (h2ty : m2.type ≠ .vStr "CLIENT_HELLO") (h2id : m2.msgId = .vStr mid) :
    (c, .pAckMsg mid now1) ∈ (handleMessage st c m1 now1).2 ∧
    handleMessage (runSteps (handleMessage st c m1 now1).1 ss) c2 m2 now2 =
      (runSteps (handleMessage st c m1 now1).1 ss,
        sendEv (runSteps (handleMessage st c m1 now1).1 ss) c2 (.pAckMsg mid now2)) := by
  have hv1 : validMsgId m1.msgId = some mid := by
    rw [h1id]
    simp [validMsgId, htr]
  have hfirst : handleMessage st c m1 now1 =
      ((dispatchData (markMsgId st meta.incidentId mid now1) c meta mid m1 now1).1,
        sendEv (markMsgId st meta.incidentId mid now1) c (.pAckMsg mid now1) ++
          (dispatchData (markMsgId st meta.incidentId mid now1) c meta mid m1 now1).2) := by
    simp only [handleMessage, if_neg h1ty, hmeta, handleData, hv1, hfresh, Option.isSome_none,
      Bool.false_eq_true, if_false]
  constructor
  · rw [hfirst]
    refine List.mem_append_left _ ?_
    have hopen2 : c ∈ (markMsgId st meta.incidentId mid now1).openConns := hopen
    rw [sendEv, if_pos hopen2]
    exact List.mem_singleton.mpr rfl
  · have hd1 : dedupLookup (handleMessage st c m1 now1).1 meta.incidentId mid = some now1 := by
      rw [hfirst]
      show dedupLookup
        (dispatchData (markMsgId st meta.incidentId mid now1) c meta mid m1 now1).1
        meta.incidentId mid = some now1
      rw [dedupLookup_eq_of _ (markMsgId st meta.incidentId mid now1)
        (dispatchData_frame (markMsgId st meta.incidentId mid now1) c meta mid m1 now1).2.2.1]
      exact dedupLookup_markMsgId_self st meta.incidentId mid now1
    have hd2 : dedupLookup (runSteps (handleMessage st c m1 now1).1 ss) meta.incidentId mid =
        some now1 :=
      dedupLookup_runSteps _ ss meta.incidentId mid now1 hd1 hsweeps
    have hv2 : validMsgId m2.msgId = some mid := by
      rw [h2id]
      simp [validMsgId, htr]
    have hd2b : (dedupLookup (runSteps (handleMessage st c m1 now1).1 ss)
        meta2.incidentId mid).isSome = true := by
      rw [hinc2, hd2]
      rfl
    set st2 := runSteps (handleMessage st c m1 now1).1 ss with hst2
    simp only [handleMessage, if_neg h2ty, hmeta2, handleData, hv2, hd2b, if_true]

/-- Witness for `dedup_effect_at_most_once`: a joined responder sends
`CHAT_SEND{msgId:"m1"}` at `t=100`, a sweep runs exactly at the TTL boundary,
and the same envelope resent at `t=200` is only re-acknowledged. -/
theorem dedup_effect_at_most_once_witness :
    (0, .pAckMsg "m1" 100) ∈
      (handleMessage ⟨[("I1", [0])], [(0, ⟨"I1", "A"⟩)], [], [], [], [0]⟩ 0
        (chatMsgF "m1" "hi") 100).2 ∧
    handleMessage (runSteps (handleMessage ⟨[("I1", [0])], [(0, ⟨"I1", "A"⟩)], [], [], [], [0]⟩ 0
        (chatMsgF "m1" "hi") 100).1 [Step.sweep (100 + DEDUP_TTL_MS)]) 0 (chatMsgF "m1" "hi") 200 =
      (runSteps (handleMessage ⟨[("I1", [0])], [(0, ⟨"I1", "A"⟩)], [], [], [], [0]⟩ 0
          (chatMsgF "m1" "hi") 100).1 [Step.sweep (100 + DEDUP_TTL_MS)],
        sendEv (runSteps (handleMessage ⟨[("I1", [0])], [(0, ⟨"I1", "A"⟩)], [], [], [], [0]⟩ 0
            (chatMsgF "m1" "hi") 100).1 [Step.sweep (100 + DEDUP_TTL_MS)]) 0
          (.pAckMsg "m1" 200)) :=
  dedup_effect_at_most_once ⟨[("I1", [0])], [(0, ⟨"I1", "A"⟩)], [], [], [], [0]⟩ 0
    (chatMsgF "m1" "hi") (chatMsgF "m1" "hi") ⟨"I1", "A"⟩ "m1" 100
    [Step.sweep (100 + DEDUP_TTL_MS)] 0 ⟨"I1", "A"⟩ 200
    (by decide) (by decide) rfl (by decide) (by decide) (by decide)
    (by intro t ht; simp at ht; omega) (by decide) rfl (by decide) rfl

/-- C10: when the simulator receives an `ACK_MSG` whose `msgId` is not in the
`pending` map, the handler is a no-op: the client state, in particular both
the `pending` map and the outbox, is left entirely unchanged. -/
theorem ack_unknown_msgId_noop (st : ClientState) (v : Value)
    (h : pendingHas st.pending v = false) : handleAckMsg st v = st := by
  cases v with
  | vStr id =>
    simp only [pendingHas] at h
    simp only [handleAckMsg]
    rw [if_neg (by simp [h])]
  | vNum q => rfl
  | vNaN => rfl
  | vBool b => rfl
  | vNull => rfl
  | vUndef => rfl
  | vObj s => rfl

/-- Witness for `ack_unknown_msgId_noop`: a concrete client with only `"a"`
pending receives `ACK_MSG{msgId:"b"}` and is unchanged. -/
theorem ack_unknown_msgId_noop_witness :
    pendingHas clientW.pending (.vStr "b") = false ∧
      handleAckMsg clientW (.vStr "b") = clientW :=
  ⟨by decide, ack_unknown_msgId_noop clientW (.vStr "b") (by decide)⟩

/-- C9: `CLIENT_HELLO` fields are coerced by `String(x ?? "")` whatever their
JSON type; the handshake is accepted (metadata bound to the coerced strings and
`ACK` emitted) precisely when both coerced values are non-empty, and only
missing, null/undefined, or coerced-to-empty fields yield the `ERROR` reply. -/
theorem hello_accepts_coercible_fields (st : ServerState) (c : ConnId) (m : JMsg) (now : Nat)
    (hty : m.type = .vStr "CLIENT_HELLO") (hopen : c ∈ st.openConns) :
    if coerceStr m.incidentId = "" ∨ coerceStr m.responderId = "" then
      handleMessage st c m now =
        (st, [(c, .pError "CLIENT_HELLO requires incidentId and responderId" now)])
    else
      alookup (handleMessage st c m now).1.clientMeta c =
          some ⟨coerceStr m.incidentId, coerceStr m.responderId⟩ ∧
        (c, .pAck (coerceStr m.incidentId) now) ∈ (handleMessage st c m now).2 := by
  unfold handleMessage
  rw [if_pos hty]
  unfold handleHello
  by_cases hc : coerceStr m.incidentId = "" ∨ coerceStr m.responderId = ""
  · rw [if_pos hc]
    dsimp only
    rw [if_pos hc, sendEv, if_pos hopen]
  · rw [if_neg hc]
    dsimp only
    rw [if_neg hc]
    constructor
    · show alookup
        (aset st.clientMeta c ⟨coerceStr m.incidentId, coerceStr m.responderId⟩) c = _
      exact alookup_aset_self _ _ _
    · refine List.mem_append_left _ ?_
      have hopen2 : c ∈ (helloBoundState st c (coerceStr m.incidentId)
          (coerceStr m.responderId)).openConns := hopen
      rw [sendEv, if_pos hopen2]
      exact List.mem_singleton.mpr rfl

/-- Witness for `hello_accepts_coercible_fields`: a hello whose `incidentId`
is the number `7` and whose `responderId` is a plain object is accepted. -/
theorem hello_accepts_coercible_fields_witness :
    if coerceStr (JMsg.mk (.vStr "CLIENT_HELLO") .vUndef (.vNum 7)
          (.vObj "[object Object]") .vUndef .vUndef .vUndef .vUndef .vUndef).incidentId = "" ∨
        coerceStr (JMsg.mk (.vStr "CLIENT_HELLO") .vUndef (.vNum 7)
          (.vObj "[object Object]") .vUndef .vUndef .vUndef .vUndef .vUndef).responderId = "" then
      handleMessage ⟨[], [], [], [], [], [0]⟩ 0
          (JMsg.mk (.vStr "CLIENT_HELLO") .vUndef (.vNum 7)
            (.vObj "[object Object]") .vUndef .vUndef .vUndef .vUndef .vUndef) 5 =
        (⟨[], [], [], [], [], [0]⟩,
          [(0, .pError "CLIENT_HELLO requires incidentId and responderId" 5)])
    else
      alookup (handleMessage ⟨[], [], [], [], [], [0]⟩ 0
            (JMsg.mk (.vStr "CLIENT_HELLO") .vUndef (.vNum 7)
              (.vObj "[object Object]") .vUndef .vUndef .vUndef .vUndef .vUndef) 5).1.clientMeta 0 =
          some ⟨coerceStr (Value.vNum 7), coerceStr (Value.vObj "[object Object]")⟩ ∧
        (0, .pAck (coerceStr (Value.vNum 7)) 5) ∈
          (handleMessage ⟨[], [], [], [], [], [0]⟩ 0
            (JMsg.mk (.vStr "CLIENT_HELLO") .vUndef (.vNum 7)
              (.vObj "[object Object]") .vUndef .vUndef .vUndef .vUndef .vUndef) 5).2 :=
  hello_accepts_coercible_fields ⟨[], [], [], [], [], [0]⟩ 0
    (JMsg.mk (.vStr "CLIENT_HELLO") .vUndef (.vNum 7)
      (.vObj "[object Object]") .vUndef .vUndef .vUndef .vUndef .vUndef) 5 rfl (by decide)

/-- C4: a `LOCATION_UPDATE` from a joined connection with a fresh `msgId` but
invalid coordinates is acknowledged (`ACK_MSG`, because the id was marked) and
answered with `ERROR`; the only state change is the dedup mark:
`lastLocationByResponder` (and all other stores) are untouched and no
broadcast is emitted. -/
theorem location_update_invalid_coords (st : ServerState) (c : ConnId) (m : JMsg) (now : Nat)
    (meta : ClientMeta) (mid : String)
    (hmeta : alookup st.clientMeta c = some meta)
    (hty : m.type = .vStr "LOCATION_UPDATE")
    (hid : m.msgId = .vStr mid) (htr : trimEmpty mid = false)
    (hfresh : dedupLookup st meta.incidentId mid = none)
    (hbad : isValidLatLng m.lat m.lng = false)
    (hopen : c ∈ st.openConns) :
    handleMessage st c m now =
      (markMsgId st meta.incidentId mid now,
        [(c, .pAckMsg mid now), (c, .pError "Invalid lat/lng" now)]) ∧
    (markMsgId st meta.incidentId mid now).lastLocationByResponder =
      st.lastLocationByResponder ∧
    (markMsgId st meta.incidentId mid now).activeSosByIncident = st.activeSosByIncident ∧
    (markMsgId st meta.incidentId mid now).rooms = st.rooms := by
  have hne : m.type ≠ Value.vStr "CLIENT_HELLO" := by
    rw [hty]
    decide
  have hv : validMsgId m.msgId = some mid := by
    rw [hid]
    simp [validMsgId, htr]
  have hll := latLng?_eq_none m.lat m.lng hbad
  refine ⟨?_, rfl, rfl, rfl⟩
  simp [handleMessage, if_neg hne, hmeta, handleData, hv, hfresh, dispatchData, hty, hll,
    sendEv, markMsgId, hopen]

theorem sosLookup_eq_of (st1 st2 : ServerState)
    (h : st1.activeSosByIncident = st2.activeSosByIncident) (inc rid : String) :
    sosLookup st1 inc rid = sosLookup st2 inc rid := by
  unfold sosLookup
  rw [h]

/-- C6: disconnect cleanup never removes SOS state: an active SOS for a
responder survives any connection close, and a later successful handshake by
that responder into the same incident receives an `INCIDENT_SNAPSHOT` whose
`sos` map still contains the responder's stored state. -/
theorem sos_survives_disconnect (st : ServerState) (c : ConnId) (now : Nat)
    (inc rid : String) (s : SosState) (cJ : ConnId) (m : JMsg) (now2 : Nat)
    (hsos : sosLookup st inc rid = some s)
    (hty : m.type = .vStr "CLIENT_HELLO")
    (hinc : coerceStr m.incidentId = inc) (hne : inc ≠ "")
    (hrid : coerceStr m.responderId = rid) (hne2 : rid ≠ "") :
    sosLookup (handleClose st c now).1 inc rid = some s ∧
    ∃ resp locs sosMap,
      (cJ, .pSnapshot inc resp locs sosMap now2) ∈
        (handleMessage (stepConnect (handleClose st c now).1 cJ) cJ m now2).2 ∧
      alookup sosMap rid = some s := by
  have hclose : sosLookup (handleClose st c now).1 inc rid = some s := by
    rw [sosLookup_eq_of _ st (handleClose_frame st c now).2.1]
    exact hsos
  refine ⟨hclose, ?_⟩
  subst hinc
  subst hrid
  unfold handleMessage
  rw [if_pos hty]
  unfold handleHello
  rw [if_neg (fun hor => hor.elim hne hne2)]
  dsimp only
  set H := helloBoundState (stepConnect (handleClose st c now).1 cJ) cJ
    (coerceStr m.incidentId) (coerceStr m.responderId) with hH
  refine ⟨getIncidentResponderIds H (coerceStr m.incidentId),
    getIncidentLocations H (coerceStr m.incidentId),
    getIncidentSos H (coerceStr m.incidentId), ?_, ?_⟩
  · refine List.mem_append_right _ ?_
    have hopen : cJ ∈ H.openConns := self_mem_setAdd _ cJ
    rw [sendEv, if_pos hopen]
    exact List.mem_singleton.mpr rfl
  · have hSos : H.activeSosByIncident = st.activeSosByIncident := by
      rw [hH]
      show (handleClose st c now).1.activeSosByIncident = st.activeSosByIncident
      exact (handleClose_frame st c now).2.1
    unfold getIncidentSos
    rw [hSos]
    unfold sosLookup at hsos
    cases hmm : alookup st.activeSosByIncident (coerceStr m.incidentId) with
    | none =>
      rw [hmm] at hsos
      simp at hsos
    | some mm =>
      rw [hmm] at hsos
      rw [Option.some_bind] at hsos
      simpa using hsos

/-- Witness for `sos_survives_disconnect`: responder `A` has SOS in `I1`, its
connection 0 closes, then connection 1 joins `I1` as `A` and the snapshot's
`sos` still holds the stored state. -/
theorem sos_survives_disconnect_witness :
    sosLookup (handleClose ⟨[("I1", [0])], [(0, ⟨"I1", "A"⟩)], [],
        [("I1", [("A", ⟨some "trapped", 5⟩)])], [], [0]⟩ 0 10).1 "I1" "A" =
      some ⟨some "trapped", 5⟩ ∧
    ∃ resp locs sosMap,
      (1, .pSnapshot "I1" resp locs sosMap 20) ∈
        (handleMessage (stepConnect (handleClose ⟨[("I1", [0])], [(0, ⟨"I1", "A"⟩)], [],
          [("I1", [("A", ⟨some "trapped", 5⟩)])], [], [0]⟩ 0 10).1 1) 1 (helloMsg "I1" "A") 20).2 ∧
      alookup sosMap "A" = some ⟨some "trapped", 5⟩ :=
  sos_survives_disconnect ⟨[("I1", [0])], [(0, ⟨"I1", "A"⟩)], [],
      [("I1", [("A", ⟨some "trapped", 5⟩)])], [], [0]⟩ 0 10 "I1" "A" ⟨some "trapped", 5⟩
    1 (helloMsg "I1" "A") 20 (by decide) rfl rfl (by decide) rfl (by decide)

/-- Witness for `location_update_invalid_coords`: a joined responder sends
`LOCATION_UPDATE{msgId:"L2", lat:200, lng:0}`. -/
theorem location_update_invalid_coords_witness :
    handleMessage ⟨[("I1", [0])], [(0, ⟨"I1", "A"⟩)], [], [], [], [0]⟩ 0
        (locMsgF "L2" (.vNum 200) (.vNum 0)) 9 =
      (markMsgId ⟨[("I1", [0])], [(0, ⟨"I1", "A"⟩)], [], [], [], [0]⟩ "I1" "L2" 9,
        [(0, .pAckMsg "L2" 9), (0, .pError "Invalid lat/lng" 9)]) ∧
    (markMsgId ⟨[("I1", [0])], [(0, ⟨"I1", "A"⟩)], [], [], [], [0]⟩ "I1" "L2" 9).lastLocationByResponder =
      (⟨[("I1", [0])], [(0, ⟨"I1", "A"⟩)], [], [], [], [0]⟩ : ServerState).lastLocationByResponder ∧
    (markMsgId ⟨[("I1", [0])], [(0, ⟨"I1", "A"⟩)], [], [], [], [0]⟩ "I1" "L2" 9).activeSosByIncident =
      (⟨[("I1", [0])], [(0, ⟨"I1", "A"⟩)], [], [], [], [0]⟩ : ServerState).activeSosByIncident ∧
    (markMsgId ⟨[("I1", [0])], [(0, ⟨"I1", "A"⟩)], [], [], [], [0]⟩ "I1" "L2" 9).rooms =
      (⟨[("I1", [0])], [(0, ⟨"I1", "A"⟩)], [], [], [], [0]⟩ : ServerState).rooms :=
  location_update_invalid_coords _ 0 (locMsgF "L2" (.vNum 200) (.vNum 0)) 9 ⟨"I1", "A"⟩ "L2"
    (by decide) rfl rfl (by decide) (by decide) (by decide) (by decide)

end Fireline
